import Mathlib

/-!
Verification of the axidev-io keyboard injection core.

This file gives a shallow embedding of the Linux uinput `Sender` backend
(src/src/sender/sender_uinput.cpp) and of the XKB layout detection helper
(src/src/keyboard/common/linux_layout.cpp), together with theorems about
the behavioral claims made in the specification.

Modelling notes:
- Machine integers are modelled as `Int`/`Nat`; all values involved are far
  from any overflow boundary, and the C++ code performs no wrapping
  arithmetic on them.
- The `Impl` pimpl state is modelled by `SenderState` (the constructor
  always allocates an `Impl`, so the null-pimpl branch is only reachable
  after a move and is not modelled).
- `write(2)` failures are invisible to the C++ code (the return value of
  `emit` is discarded), so the model records each attempted event write in
  a trace; no success flag exists because the code never consults one.
- Real time (`delay()`, `std::this_thread::sleep_for`) has no observable
  effect on state or trace and is not modelled.
-/

namespace Axidev

/-- Modifier bitmask {None, Shift, Ctrl, Alt, Super}; modelled as one Bool
per bit (the numeric bit layout is irrelevant to the bit operations the
code performs). -/
structure Modifier where
  shift : Bool
  ctrl : Bool
  alt : Bool
  super : Bool
deriving DecidableEq, Repr

/-- Modifier::None. -/
def Modifier.None : Modifier := ⟨false, false, false, false⟩

/-- Modifier::Shift. -/
def Modifier.Shift : Modifier := ⟨true, false, false, false⟩

/-- Modifier::Ctrl. -/
def Modifier.Ctrl : Modifier := ⟨false, true, false, false⟩

/-- Modifier::Alt. -/
def Modifier.Alt : Modifier := ⟨false, false, true, false⟩

/-- Modifier::Super. -/
def Modifier.Super : Modifier := ⟨false, false, false, true⟩

/-- Bitwise union of modifier masks (operator| on Modifier). -/
def Modifier.or (a b : Modifier) : Modifier :=
  ⟨a.shift || b.shift, a.ctrl || b.ctrl, a.alt || b.alt, a.super || b.super⟩

/-- Bitwise clear: a AND NOT b (the cast-and-mask pattern in Sender::keyUp). -/
def Modifier.andNot (a b : Modifier) : Modifier :=
  ⟨a.shift && !b.shift, a.ctrl && !b.ctrl, a.alt && !b.alt, a.super && !b.super⟩

/-- hasModifier(mask, bit): bitwise intersection is non-empty. -/
def hasModifier (a b : Modifier) : Bool :=
  (a.shift && b.shift) || (a.ctrl && b.ctrl) || (a.alt && b.alt) || (a.super && b.super)

/-- The logical Key taxonomy (the closed enumeration from the public
headers, restricted to the constructors the uinput backend mentions). -/
inductive Key where
  | A | B | C | D | E | F | G | H | I | J | K | L | M
  | N | O | P | Q | R | S | T | U | V | W | X | Y | Z
  | Num0 | Num1 | Num2 | Num3 | Num4 | Num5 | Num6 | Num7 | Num8 | Num9
  | F1 | F2 | F3 | F4 | F5 | F6 | F7 | F8 | F9 | F10
  | F11 | F12 | F13 | F14 | F15 | F16 | F17 | F18 | F19 | F20
  | Space | Enter | Tab | Backspace | Delete | Escape
  | Left | Right | Up | Down | Home | End | PageUp | PageDown | Insert
  | ShiftLeft | ShiftRight | CtrlLeft | CtrlRight
  | AltLeft | AltRight | SuperLeft | SuperRight
  | CapsLock | NumLock
  | Numpad0 | Numpad1 | Numpad2 | Numpad3 | Numpad4
  | Numpad5 | Numpad6 | Numpad7 | Numpad8 | Numpad9
  | NumpadDivide | NumpadMultiply | NumpadMinus | NumpadPlus
  | NumpadEnter | NumpadDecimal
  | Menu | Mute | VolumeDown | VolumeUp
  | MediaPlayPause | MediaStop | MediaNext | MediaPrevious
  | Grave | Minus | Equal | LeftBracket | RightBracket | Backslash
  | Semicolon | Apostrophe | Comma | Period | Slash
  | Unknown
deriving DecidableEq, Repr

/-- First-match lookup in an association list, mirroring
std::unordered_map::find (keys are unique by construction, so iteration
order is immaterial). -/
def lookupKey : List (Key × Int) → Key → Option Int
  | [], _ => none
  | (k2, v) :: rest, k => if k2 = k then some v else lookupKey rest k

/-- The setIfMissing lambda of Impl::initKeyMap: insert only when the key
is not yet present. -/
def setIfMissing (m : List (Key × Int)) (k : Key) (v : Int) : List (Key × Int) :=
  match lookupKey m k with
  | some _ => m
  | none => m ++ [(k, v)]

/-- The static fallback table of Impl::initKeyMap, in source order, with
the canonical Linux evdev KEY_* constant values. -/
def fallbackEntries : List (Key × Int) := [
  (Key.Space, 57), (Key.Enter, 28), (Key.Tab, 15), (Key.Backspace, 14),
  (Key.Delete, 111), (Key.Escape, 1), (Key.Left, 105), (Key.Right, 106),
  (Key.Up, 103), (Key.Down, 108), (Key.Home, 102), (Key.End, 107),
  (Key.PageUp, 104), (Key.PageDown, 109),
  (Key.ShiftLeft, 42), (Key.ShiftRight, 54), (Key.CtrlLeft, 29),
  (Key.CtrlRight, 97), (Key.AltLeft, 56), (Key.AltRight, 100),
  (Key.SuperLeft, 125), (Key.SuperRight, 126), (Key.CapsLock, 58),
  (Key.NumLock, 69),
  (Key.F1, 59), (Key.F2, 60), (Key.F3, 61), (Key.F4, 62), (Key.F5, 63),
  (Key.F6, 64), (Key.F7, 65), (Key.F8, 66), (Key.F9, 67), (Key.F10, 68),
  (Key.F11, 87), (Key.F12, 88), (Key.F13, 183), (Key.F14, 184),
  (Key.F15, 185), (Key.F16, 186), (Key.F17, 187), (Key.F18, 188),
  (Key.F19, 189), (Key.F20, 190),
  (Key.A, 30), (Key.B, 48), (Key.C, 46), (Key.D, 32), (Key.E, 18),
  (Key.F, 33), (Key.G, 34), (Key.H, 35), (Key.I, 23), (Key.J, 36),
  (Key.K, 37), (Key.L, 38), (Key.M, 50), (Key.N, 49), (Key.O, 24),
  (Key.P, 25), (Key.Q, 16), (Key.R, 19), (Key.S, 31), (Key.T, 20),
  (Key.U, 22), (Key.V, 47), (Key.W, 17), (Key.X, 45), (Key.Y, 21),
  (Key.Z, 44),
  (Key.Num0, 11), (Key.Num1, 2), (Key.Num2, 3), (Key.Num3, 4),
  (Key.Num4, 5), (Key.Num5, 6), (Key.Num6, 7), (Key.Num7, 8),
  (Key.Num8, 9), (Key.Num9, 10),
  (Key.Numpad0, 82), (Key.Numpad1, 79), (Key.Numpad2, 80),
  (Key.Numpad3, 81), (Key.Numpad4, 75), (Key.Numpad5, 76),
  (Key.Numpad6, 77), (Key.Numpad7, 71), (Key.Numpad8, 72),
  (Key.Numpad9, 73), (Key.NumpadDivide, 98), (Key.NumpadMultiply, 55),
  (Key.NumpadMinus, 74), (Key.NumpadPlus, 78), (Key.NumpadEnter, 96),
  (Key.NumpadDecimal, 83),
  (Key.Menu, 139), (Key.Mute, 113), (Key.VolumeDown, 114),
  (Key.VolumeUp, 115), (Key.MediaPlayPause, 164), (Key.MediaStop, 166),
  (Key.MediaNext, 163), (Key.MediaPrevious, 165),
  (Key.Grave, 41), (Key.Minus, 12), (Key.Equal, 13),
  (Key.LeftBracket, 26), (Key.RightBracket, 27), (Key.Backslash, 43),
  (Key.Semicolon, 39), (Key.Apostrophe, 40), (Key.Comma, 51),
  (Key.Period, 52), (Key.Slash, 53)]

/-- Applying the fallback table to whatever mappings the xkb scan
discovered (the sequence of setIfMissing calls in Impl::initKeyMap). -/
def applyFallback (m : List (Key × Int)) : List (Key × Int) :=
  fallbackEntries.foldl (fun acc kv => setIfMissing acc kv.1 kv.2) m

/-- Impl::initKeyMap: a layout-aware xkb scan (whose outcome depends on
the external xkbcommon library and is therefore a parameter `discovered`,
empty when discovery fails or contributes nothing) followed by the static
fallback table. -/
def initKeyMap (discovered : List (Key × Int)) : List (Key × Int) :=
  applyFallback discovered

/-- Impl::linuxKeyCodeFor on a raw map: the stored code, or -1 when the
key is unmapped. -/
def resolveCode (m : List (Key × Int)) (k : Key) : Int :=
  match lookupKey m k with
  | some c => c
  | none => -1

/-- The observable actions of a Sender call: invocation of Sender::keyDown
or Sender::keyUp on a key, a write of an EV_KEY input_event (annotated
with the code, direction, and the tracked modifier mask at the moment of
the write), and a write of an EV_SYN sync event. -/
inductive Action where
  | downCall (k : Key)
  | upCall (k : Key)
  | phys (code : Int) (down : Bool) (mods : Modifier)
  | syn
deriving DecidableEq, Repr

/-- The mutable state of Sender::Impl (the uinput backend): the device
file descriptor (negative when /dev/uinput could not be opened), the
tracked modifier bitmask, the inter-key delay, and the per-instance key
map. -/
structure SenderState where
  fd : Int
  currentMods : Modifier
  keyDelayUs : Nat
  keyMap : List (Key × Int)
deriving DecidableEq, Repr

/-- Result of one Sender operation: the boolean return value, the
post-call Impl state, and the trace of observable actions. -/
structure StepResult where
  ok : Bool
  state : SenderState
  trace : List Action
deriving DecidableEq, Repr

namespace Sender

/-- Impl::linuxKeyCodeFor. -/
def linuxKeyCodeFor (s : SenderState) (k : Key) : Int :=
  resolveCode s.keyMap k

/-- Impl::sendKey: fails when the device is not open or the key has no
mapping; otherwise writes one EV_KEY event followed by an EV_SYN sync.
The return value of write(2) is discarded by the code, so the trace
records the write attempts themselves. -/
def sendKey (s : SenderState) (k : Key) (down : Bool) : Bool × List Action :=
  if s.fd < 0 then (false, [])
  else
    let code := linuxKeyCodeFor s k
    if code < 0 then (false, [])
    else (true, [Action.phys code down s.currentMods, Action.syn])

/-- The switch statement of Sender::keyDown: modifier variants add their
bit to currentMods; other keys leave it unchanged. -/
def modsOnKeyDown (k : Key) (m : Modifier) : Modifier :=
  match k with
  | Key.ShiftLeft | Key.ShiftRight => m.or Modifier.Shift
  | Key.CtrlLeft | Key.CtrlRight => m.or Modifier.Ctrl
  | Key.AltLeft | Key.AltRight => m.or Modifier.Alt
  | Key.SuperLeft | Key.SuperRight => m.or Modifier.Super
  | _ => m

/-- The switch statement of Sender::keyUp: modifier variants clear their
bit from currentMods; other keys leave it unchanged. -/
def modsOnKeyUp (k : Key) (m : Modifier) : Modifier :=
  match k with
  | Key.ShiftLeft | Key.ShiftRight => m.andNot Modifier.Shift
  | Key.CtrlLeft | Key.CtrlRight => m.andNot Modifier.Ctrl
  | Key.AltLeft | Key.AltRight => m.andNot Modifier.Alt
  | Key.SuperLeft | Key.SuperRight => m.andNot Modifier.Super
  | _ => m

/-- Sender::keyDown: updates the tracked modifiers first (unconditionally),
then attempts the physical emission; returns the emission result. -/
def keyDown (s : SenderState) (k : Key) : StepResult :=
  let s1 : SenderState := { s with currentMods := modsOnKeyDown k s.currentMods }
  let r := sendKey s1 k true
  ⟨r.1, s1, Action.downCall k :: r.2⟩

/-- Sender::keyUp: attempts the physical emission first, then updates the
tracked modifiers (unconditionally); returns the emission result. -/
def keyUp (s : SenderState) (k : Key) : StepResult :=
  let r := sendKey s k false
  let s1 : SenderState := { s with currentMods := modsOnKeyUp k s.currentMods }
  ⟨r.1, s1, Action.upCall k :: r.2⟩

/-- Sender::tap: keyDown, delay, keyUp; returns false immediately when the
keyDown half failed (the keyUp half is not attempted in that case). -/
def tap (s : SenderState) (k : Key) : StepResult :=
  let d := keyDown s k
  if !d.ok then ⟨false, d.state, d.trace⟩
  else
    let u := keyUp d.state k
    ⟨u.ok, u.state, d.trace ++ u.trace⟩

/-- Sender::activeModifiers. -/
def activeModifiers (s : SenderState) : Modifier :=
  s.currentMods

/-- Sender::isReady. -/
def isReady (s : SenderState) : Bool :=
  !(s.fd < 0 : Bool)

/-- Sender::holdModifier: for each bit set in the mask, keyDown on the
left-side variant, accumulating the conjunction of the results. -/
def holdModifier (s : SenderState) (mod : Modifier) : StepResult :=
  let a := if hasModifier mod Modifier.Shift then keyDown s Key.ShiftLeft
           else ⟨true, s, []⟩
  let b := if hasModifier mod Modifier.Ctrl then keyDown a.state Key.CtrlLeft
           else ⟨true, a.state, []⟩
  let c := if hasModifier mod Modifier.Alt then keyDown b.state Key.AltLeft
           else ⟨true, b.state, []⟩
  let d := if hasModifier mod Modifier.Super then keyDown c.state Key.SuperLeft
           else ⟨true, c.state, []⟩
  ⟨a.ok && b.ok && c.ok && d.ok, d.state, a.trace ++ b.trace ++ c.trace ++ d.trace⟩

/-- Sender::releaseModifier: for each bit set in the mask, keyUp on the
left-side variant, accumulating the conjunction of the results. -/
def releaseModifier (s : SenderState) (mod : Modifier) : StepResult :=
  let a := if hasModifier mod Modifier.Shift then keyUp s Key.ShiftLeft
           else ⟨true, s, []⟩
  let b := if hasModifier mod Modifier.Ctrl then keyUp a.state Key.CtrlLeft
           else ⟨true, a.state, []⟩
  let c := if hasModifier mod Modifier.Alt then keyUp b.state Key.AltLeft
           else ⟨true, b.state, []⟩
  let d := if hasModifier mod Modifier.Super then keyUp c.state Key.SuperLeft
           else ⟨true, c.state, []⟩
  ⟨a.ok && b.ok && c.ok && d.ok, d.state, a.trace ++ b.trace ++ c.trace ++ d.trace⟩

/-- Sender::releaseAllModifiers. -/
def releaseAllModifiers (s : SenderState) : StepResult :=
  releaseModifier s (((Modifier.Shift.or Modifier.Ctrl).or Modifier.Alt).or Modifier.Super)

/-- Sender::combo: holdModifier, delay, tap, delay, releaseModifier; the
release result is discarded, and the release is skipped entirely when the
hold failed. -/
def combo (s : SenderState) (mods : Modifier) (k : Key) : StepResult :=
  let h := holdModifier s mods
  if !h.ok then ⟨false, h.state, h.trace⟩
  else
    let t := tap h.state k
    let r := releaseModifier t.state mods
    ⟨t.ok, r.state, h.trace ++ t.trace ++ r.trace⟩

/-- Sender::typeText (UTF-32 overload): uinput cannot inject Unicode, so
the call fails without side effects. The text argument is modelled as a
list of codepoints. -/
def typeTextU32 (s : SenderState) (_text : List Nat) : StepResult :=
  ⟨false, s, []⟩

/-- Sender::typeText (UTF-8 overload): fails without side effects. -/
def typeTextU8 (s : SenderState) (_utf8Text : String) : StepResult :=
  ⟨false, s, []⟩

/-- Sender::typeCharacter: fails without side effects. -/
def typeCharacter (s : SenderState) (_codepoint : Nat) : StepResult :=
  ⟨false, s, []⟩

/-- The Capabilities struct. -/
structure Capabilities where
  canInjectKeys : Bool
  canInjectText : Bool
  canSimulateHID : Bool
  supportsKeyRepeat : Bool
  needsAccessibilityPerm : Bool
  needsInputMonitoringPerm : Bool
  needsUinputAccess : Bool
deriving DecidableEq, Repr

/-- Sender::capabilities for the uinput backend. -/
def capabilities (s : SenderState) : Capabilities :=
  { canInjectKeys := !(s.fd < 0 : Bool)
    canInjectText := false
    canSimulateHID := true
    supportsKeyRepeat := true
    needsAccessibilityPerm := false
    needsInputMonitoringPerm := false
    needsUinputAccess := true }

end Sender

namespace Layout

/-- The whitespace set of trimInPlace: space, tab, CR, LF. -/
def isWsChar (c : Char) : Bool :=
  c = ' ' || c = Char.ofNat 9 || c = Char.ofNat 13 || c = Char.ofNat 10

/-- trimInPlace: drop leading and trailing whitespace. -/
def trimChars (l : List Char) : List Char :=
  ((l.dropWhile isWsChar).reverse.dropWhile isWsChar).reverse

/-- The double-quote character. -/
def dquote : Char := Char.ofNat 34

/-- The single-quote character. -/
def squote : Char := Char.ofNat 39

/-- stripSurroundingQuotes: remove one matching pair of surrounding single
or double quotes when the string has length at least 2. -/
def stripQuotes (l : List Char) : List Char :=
  if 2 ≤ l.length ∧
      ((l.head? = some dquote ∧ l.getLast? = some dquote) ∨
       (l.head? = some squote ∧ l.getLast? = some squote)) then
    (l.drop 1).dropLast
  else l

/-- The suffix strictly after the first occurrence of `c`, or none when
`c` does not occur (std::string::find followed by substr(pos+1)). -/
def afterChar (c : Char) : List Char → Option (List Char)
  | [] => none
  | x :: xs => if x = c then some xs else afterChar c xs

/-- str.resize(str.find(c)) when c occurs: the prefix before the first
occurrence of `c`. -/
def upToChar (c : Char) (l : List Char) : List Char :=
  l.takeWhile (· ≠ c)

/-- The five XKB rule-name fields (XkbRuleNamesStrings). -/
structure RuleNames where
  rules : String
  model : String
  layout : String
  variant : String
  options : String
deriving DecidableEq, Repr

/-- The all-empty rule names value. -/
def RuleNames.empty : RuleNames := ⟨"", "", "", "", ""⟩

/-- setIfEmpty: fill the field only when it is still empty. -/
def setIfEmpty (dst v : String) : String :=
  if dst = "" then v else dst

/-- Parse one config-file line: strip the comment (from the first #),
trim; skip empty lines and lines without =; split at the first =; the key
is trimmed and uppercased (normalizeKey), the value is trimmed,
quote-stripped, and trimmed again. -/
def parseKV (line : String) : Option (List Char × List Char) :=
  let l := trimChars (upToChar '#' line.toList)
  if l = [] then none
  else
    match afterChar '=' l with
    | none => none
    | some rest =>
      let key := (trimChars (upToChar '=' l)).map Char.toUpper
      let val := trimChars (stripQuotes (trimChars rest))
      some (key, val)

/-- The recognized-key dispatch of the config parser: each recognized key
fills its field only if still empty (setIfEmpty); unrecognized keys are
ignored. -/
def applyKV (out : RuleNames) (key val : List Char) : RuleNames :=
  let v : String := String.mk val
  if key = "XKBRULES".toList ∨ key = "XKB_DEFAULT_RULES".toList then
    { out with rules := setIfEmpty out.rules v }
  else if key = "XKBMODEL".toList ∨ key = "XKB_DEFAULT_MODEL".toList then
    { out with model := setIfEmpty out.model v }
  else if key = "XKBLAYOUT".toList ∨ key = "XKB_DEFAULT_LAYOUT".toList then
    { out with layout := setIfEmpty out.layout v }
  else if key = "XKBVARIANT".toList ∨ key = "XKB_DEFAULT_VARIANT".toList then
    { out with variant := setIfEmpty out.variant v }
  else if key = "XKBOPTIONS".toList ∨ key = "XKB_DEFAULT_OPTIONS".toList then
    { out with options := setIfEmpty out.options v }
  else out

/-- One iteration of the config-file parsing loop: lines that parse to a
key/value pair with an empty value are skipped (continue) and fill
nothing. -/
def processLine (out : RuleNames) (line : String) : RuleNames :=
  match parseKV line with
  | none => out
  | some (k, v) => if v = [] then out else applyKV out k v

/-- The whole config-file pass over the lines of /etc/default/keyboard. -/
def parseConfigLines (out : RuleNames) (lines : List String) : RuleNames :=
  lines.foldl processLine out

/-- The locale heuristic of detectXkbRuleNames step 3, applied to a found
locale string: truncate at the first . then at the first @, split at the
first _ into language (lowercased) and region (uppercased), then the
fixed lookup table; when no branch fires (empty language) the layout is
left as it was. -/
def localeHeuristic (layout : String) (locale : String) : String :=
  let l := upToChar '@' (upToChar '.' locale.toList)
  let lang := (upToChar '_' l).map Char.toLower
  let region := ((afterChar '_' l).getD []).map Char.toUpper
  if lang = "en".toList then
    (if region = "GB".toList ∨ region = "UK".toList then "gb" else "us")
  else if lang = "pt".toList ∧ region = "BR".toList then "br"
  else if lang = "da".toList then "dk"
  else if lang = "sv".toList then "se"
  else if lang ≠ [] then String.mk lang
  else layout

/-- detectXkbRuleNames step 3: when the layout is still empty, the locale
string is the first of getenv(LC_ALL), getenv(LC_MESSAGES), getenv(LANG)
that is set (non-null) — note: set, not non-empty — and the heuristic is
applied to it; when none is set, or the layout was already non-empty, the
layout is unchanged. -/
def localeStep (layout : String) (lcAll lcMessages lang : Option String) : String :=
  if layout = "" then
    match (lcAll.orElse (fun _ => lcMessages)).orElse (fun _ => lang) with
    | none => layout
    | some locale => localeHeuristic layout locale
  else layout

end Layout

/-! Derived observers and helper definitions used by the theorems. -/

/-- The modifier bit a key contributes to the tracked state, when it is a
left/right Shift/Ctrl/Alt/Super variant. -/
def modifierBit : Key → Option Modifier
  | Key.ShiftLeft | Key.ShiftRight => some Modifier.Shift
  | Key.CtrlLeft | Key.CtrlRight => some Modifier.Ctrl
  | Key.AltLeft | Key.AltRight => some Modifier.Alt
  | Key.SuperLeft | Key.SuperRight => some Modifier.Super
  | _ => none

/-- The EV_KEY writes of a trace, in order (sync events and call markers
dropped). -/
def physEvents : List Action → List (Int × Bool × Modifier)
  | [] => []
  | Action.phys c d m :: rest => (c, d, m) :: physEvents rest
  | _ :: rest => physEvents rest

/-- The keys on which Sender::keyDown was invoked, in order. -/
def downCalls : List Action → List Key
  | [] => []
  | Action.downCall k :: rest => k :: downCalls rest
  | _ :: rest => downCalls rest

/-- The keys on which Sender::keyUp was invoked, in order. -/
def upCalls : List Action → List Key
  | [] => []
  | Action.upCall k :: rest => k :: upCalls rest
  | _ :: rest => upCalls rest

/-- The success condition of Impl::sendKey in state `s` for key `k`
(device open and key mapped); state-independent of the tracked
modifiers. -/
def sendOk (s : SenderState) (k : Key) : Bool :=
  if s.fd < 0 then false
  else if Sender.linuxKeyCodeFor s k < 0 then false
  else true

/-- The left-side variants holdModifier/releaseModifier operate on, in
the fixed Shift, Ctrl, Alt, Super order, restricted to the bits set in
the mask. -/
def leftVariantCalls (mod : Modifier) : List Key :=
  (if hasModifier mod Modifier.Shift then [Key.ShiftLeft] else []) ++
  (if hasModifier mod Modifier.Ctrl then [Key.CtrlLeft] else []) ++
  (if hasModifier mod Modifier.Alt then [Key.AltLeft] else []) ++
  (if hasModifier mod Modifier.Super then [Key.SuperLeft] else [])

/-- A Sender state whose uinput device failed to open (isReady is false);
the key map still holds the full fallback table, as after any
construction. -/
def sNotReady : SenderState := ⟨-1, Modifier.None, 1000, initKeyMap []⟩

/-- A ready Sender state with the key map produced by construction when
the xkb scan contributes nothing. -/
def sReady : SenderState := ⟨3, Modifier.None, 1000, initKeyMap []⟩

/-- A hypothetical Impl state in which the left Shift variant is unmapped
while the right variant is mapped; used to exhibit the absence of a
fallback path in holdModifier. -/
def sRightOnly : SenderState := ⟨3, Modifier.None, 1000, [(Key.ShiftRight, 54)]⟩

/-- The five XKB rule-name fields of the config parser, as an index. -/
inductive FieldId where
  | rules | model | layout | variant | options
deriving DecidableEq, Repr

/-- Read the field selected by the index. -/
def Layout.RuleNames.fieldOf (out : Layout.RuleNames) : FieldId → String
  | FieldId.rules => out.rules
  | FieldId.model => out.model
  | FieldId.layout => out.layout
  | FieldId.variant => out.variant
  | FieldId.options => out.options

/-- Write the field selected by the index. -/
def Layout.RuleNames.updateField (out : Layout.RuleNames) : FieldId → String → Layout.RuleNames
  | FieldId.rules, x => { out with rules := x }
  | FieldId.model, x => { out with model := x }
  | FieldId.layout, x => { out with layout := x }
  | FieldId.variant, x => { out with variant := x }
  | FieldId.options, x => { out with options := x }

/-- The short recognized spelling of each field's config key. -/
def fieldKeysA : FieldId → List Char
  | FieldId.rules => "XKBRULES".toList
  | FieldId.model => "XKBMODEL".toList
  | FieldId.layout => "XKBLAYOUT".toList
  | FieldId.variant => "XKBVARIANT".toList
  | FieldId.options => "XKBOPTIONS".toList

/-- The long recognized spelling of each field's config key. -/
def fieldKeysB : FieldId → List Char
  | FieldId.rules => "XKB_DEFAULT_RULES".toList
  | FieldId.model => "XKB_DEFAULT_MODEL".toList
  | FieldId.layout => "XKB_DEFAULT_LAYOUT".toList
  | FieldId.variant => "XKB_DEFAULT_VARIANT".toList
  | FieldId.options => "XKB_DEFAULT_OPTIONS".toList

/-- The field a normalized key addresses, following the if-else chain of
the config parser; none for unrecognized keys. -/
def findField (key : List Char) : Option FieldId :=
  if key = "XKBRULES".toList ∨ key = "XKB_DEFAULT_RULES".toList then some FieldId.rules
  else if key = "XKBMODEL".toList ∨ key = "XKB_DEFAULT_MODEL".toList then some FieldId.model
  else if key = "XKBLAYOUT".toList ∨ key = "XKB_DEFAULT_LAYOUT".toList then some FieldId.layout
  else if key = "XKBVARIANT".toList ∨ key = "XKB_DEFAULT_VARIANT".toList then some FieldId.variant
  else if key = "XKBOPTIONS".toList ∨ key = "XKB_DEFAULT_OPTIONS".toList then some FieldId.options
  else none

/-- The first value a recognized line for the given field with a
non-empty parsed value carries, scanning the config lines in order. -/
def firstVal (f : FieldId) : List String → Option (List Char)
  | [] => none
  | line :: rest =>
    match Layout.parseKV line with
    | some (k, v) =>
      if (k = fieldKeysA f ∨ k = fieldKeysB f) ∧ v ≠ [] then some v
      else firstVal f rest
    | none => firstVal f rest

/-! Claim theorems. -/

set_option maxRecDepth 40000

/-- keyDown's state change, in closed form: only currentMods moves. -/
theorem keyDown_state_eq (s : SenderState) (k : Key) :
    (Sender.keyDown s k).state =
      { s with currentMods := Sender.modsOnKeyDown k s.currentMods } := rfl

/-- keyUp's state change, in closed form: only currentMods moves. -/
theorem keyUp_state_eq (s : SenderState) (k : Key) :
    (Sender.keyUp s k).state =
      { s with currentMods := Sender.modsOnKeyUp k s.currentMods } := rfl

/-- holdModifier touches only currentMods: fd and keyMap survive. -/
theorem holdModifier_fd_keyMap (s : SenderState) (mod : Modifier) :
    (Sender.holdModifier s mod).state.fd = s.fd ∧
    (Sender.holdModifier s mod).state.keyMap = s.keyMap := by
  cases h1 : hasModifier mod Modifier.Shift <;>
    cases h2 : hasModifier mod Modifier.Ctrl <;>
      cases h3 : hasModifier mod Modifier.Alt <;>
        cases h4 : hasModifier mod Modifier.Super <;>
          simp [Sender.holdModifier, h1, h2, h3, h4, keyDown_state_eq]

/-- C1 (counterexample): on a Sender whose device failed to open, keyDown
fails and tap returns without ever invoking the keyUp half, and combo
with a failed modifier-hold returns without ever invoking the
modifier-release keyUp — refuting the claim that the later cleanup phases
are still attempted after an earlier phase failed. -/
theorem c1_cleanup_counterexample :
    (Sender.keyDown sNotReady Key.A).ok = false ∧
    Action.upCall Key.A ∉ (Sender.tap sNotReady Key.A).trace ∧
    (Sender.holdModifier sNotReady Modifier.Ctrl).ok = false ∧
    Action.upCall Key.CtrlLeft ∉ (Sender.combo sNotReady Modifier.Ctrl Key.C).trace := by
  decide

/-- C1 (amended): tap attempts the keyUp half exactly when the keyDown
half succeeded, and combo attempts the modifier-release phase exactly
when the initial modifier-hold succeeded — in particular the release is
still attempted after a failed tap, but a failed keyDown is not followed
by a keyUp and a failed hold is not followed by a release. -/
theorem c1_cleanup_amended (s : SenderState) (mods : Modifier) (k : Key) :
    (Sender.tap s k).trace =
      (Sender.keyDown s k).trace ++
        (if (Sender.keyDown s k).ok then (Sender.keyUp (Sender.keyDown s k).state k).trace
         else []) ∧
    (Sender.combo s mods k).trace =
      (if (Sender.holdModifier s mods).ok then
        (Sender.holdModifier s mods).trace ++
          (Sender.tap (Sender.holdModifier s mods).state k).trace ++
          (Sender.releaseModifier (Sender.tap (Sender.holdModifier s mods).state k).state
            mods).trace
       else (Sender.holdModifier s mods).trace) := by
  constructor
  · cases h : (Sender.keyDown s k).ok <;> simp [Sender.tap, h]
  · cases h : (Sender.holdModifier s mods).ok <;> simp [Sender.combo, h]

/-- C2: keyDown and keyUp update the tracked modifier bitmask exactly by
the key's modifier bit (union on down, clear on up), and leave it
unchanged for non-modifier keys; the update is a function of the key and
the previous mask only — the device descriptor and key map (and hence
success or failure of the physical emission) never enter into it, and are
themselves unchanged. -/
theorem c2_modifier_ledger (s : SenderState) (k : Key) :
    ((Sender.keyDown s k).state.currentMods =
      match modifierBit k with
      | some b => s.currentMods.or b
      | none => s.currentMods) ∧
    ((Sender.keyUp s k).state.currentMods =
      match modifierBit k with
      | some b => s.currentMods.andNot b
      | none => s.currentMods) ∧
    (Sender.keyDown s k).state.fd = s.fd ∧
    (Sender.keyDown s k).state.keyMap = s.keyMap ∧
    (Sender.keyUp s k).state.fd = s.fd ∧
    (Sender.keyUp s k).state.keyMap = s.keyMap := by
  refine ⟨?_, ?_, rfl, rfl, rfl, rfl⟩ <;> cases k <;> rfl

/-- C7: on the uinput backend canInjectText is false and every typeText /
typeCharacter call returns false, emits nothing, and leaves the state
untouched. -/
theorem c7_no_text_injection (s : SenderState) (t32 : List Nat) (t8 : String) (cp : Nat) :
    Sender.typeTextU32 s t32 = ⟨false, s, []⟩ ∧
    Sender.typeTextU8 s t8 = ⟨false, s, []⟩ ∧
    Sender.typeCharacter s cp = ⟨false, s, []⟩ ∧
    (Sender.capabilities s).canInjectText = false :=
  ⟨rfl, rfl, rfl, rfl⟩

/-- C8: whenever the initial holdModifier phase succeeds, combo returns
exactly the result of the tap phase; the result of the final
releaseModifier phase is discarded. -/
theorem c8_combo_returns_tap (s : SenderState) (mods : Modifier) (k : Key)
    (h : (Sender.holdModifier s mods).ok = true) :
    (Sender.combo s mods k).ok =
      (Sender.tap (Sender.holdModifier s mods).state k).ok := by
  simp [Sender.combo, h]

/-- C8 witness: concrete instance on a ready Sender with the constructed
key map. -/
theorem c8_combo_returns_tap_witness :
    (Sender.holdModifier sReady Modifier.Ctrl).ok = true ∧
    (Sender.combo sReady Modifier.Ctrl Key.C).ok =
      (Sender.tap (Sender.holdModifier sReady Modifier.Ctrl).state Key.C).ok :=
  ⟨by decide, c8_combo_returns_tap sReady Modifier.Ctrl Key.C (by decide)⟩

/-- C9: holdModifier(None) and releaseModifier(None) return true, emit
nothing and change nothing in every state — including a not-ready one —
while on a not-ready backend the other injection operations all fail. -/
theorem c9_modifier_none_noop :
    (∀ s : SenderState,
      Sender.holdModifier s Modifier.None = ⟨true, s, []⟩ ∧
      Sender.releaseModifier s Modifier.None = ⟨true, s, []⟩) ∧
    (∀ (s : SenderState) (k : Key) (mods : Modifier) (t8 : String) (cp : Nat),
      Sender.isReady s = false →
      (Sender.keyDown s k).ok = false ∧
      (Sender.keyUp s k).ok = false ∧
      (Sender.tap s k).ok = false ∧
      (Sender.combo s mods k).ok = false ∧
      (Sender.typeTextU8 s t8).ok = false ∧
      (Sender.typeCharacter s cp).ok = false) := by
  constructor
  · intro s
    constructor <;> rfl
  · intro s k mods t8 cp h
    have hfd : s.fd < 0 := by
      simpa [Sender.isReady] using h
    have hkd : ∀ (s2 : SenderState) (k2 : Key), s2.fd = s.fd →
        (Sender.keyDown s2 k2).ok = false := by
      intro s2 k2 h2
      simp [Sender.keyDown, Sender.sendKey, h2, hfd]
    have hku : ∀ (s2 : SenderState) (k2 : Key), s2.fd = s.fd →
        (Sender.keyUp s2 k2).ok = false := by
      intro s2 k2 h2
      simp [Sender.keyUp, Sender.sendKey, h2, hfd]
    have htap : ∀ (s2 : SenderState) (k2 : Key), s2.fd = s.fd →
        (Sender.tap s2 k2).ok = false := by
      intro s2 k2 h2
      simp [Sender.tap, hkd s2 k2 h2]
    refine ⟨hkd s k rfl, hku s k rfl, htap s k rfl, ?_, rfl, rfl⟩
    cases hh : (Sender.holdModifier s mods).ok with
    | false => simp [Sender.combo, hh]
    | true => simp [Sender.combo, hh, htap _ k (holdModifier_fd_keyMap s mods).1]

/-- Lookup skips over a prefix in which the key does not occur. -/
theorem lookupKey_append_none (m1 m2 : List (Key × Int)) (k : Key)
    (h : lookupKey m1 k = none) : lookupKey (m1 ++ m2) k = lookupKey m2 k := by
  induction m1 with
  | nil => rfl
  | cons a t ih =>
    obtain ⟨k2, v⟩ := a
    by_cases hk : k2 = k
    · simp [lookupKey, hk] at h
    · simp only [List.cons_append, lookupKey, hk, if_false] at h ⊢
      exact ih h

/-- Lookup is determined by the first occurrence: appending entries does
not change an already-successful lookup. -/
theorem lookupKey_append_some (m1 m2 : List (Key × Int)) (k : Key) (w : Int)
    (h : lookupKey m1 k = some w) : lookupKey (m1 ++ m2) k = some w := by
  induction m1 with
  | nil => simp [lookupKey] at h
  | cons a t ih =>
    obtain ⟨k2, v⟩ := a
    by_cases hk : k2 = k
    · simp only [List.cons_append, lookupKey, hk, if_true] at h ⊢
      exact h
    · simp only [List.cons_append, lookupKey, hk, if_false] at h ⊢
      exact ih h

/-- After setIfMissing the key is present. -/
theorem lookupKey_setIfMissing_isSome (m : List (Key × Int)) (k : Key) (v : Int) :
    (lookupKey (setIfMissing m k v) k).isSome = true := by
  unfold setIfMissing
  cases h : lookupKey m k with
  | some w => simp [h]
  | none => rw [lookupKey_append_none _ _ _ h]; simp [lookupKey]

/-- setIfMissing never removes a present key. -/
theorem lookupKey_setIfMissing_mono (m : List (Key × Int)) (k : Key) (v : Int)
    (k2 : Key) (h : (lookupKey m k2).isSome = true) :
    (lookupKey (setIfMissing m k v) k2).isSome = true := by
  unfold setIfMissing
  cases hm : lookupKey m k with
  | some w => simpa using h
  | none =>
    cases hs : lookupKey m k2 with
    | some w => rw [lookupKey_append_some _ _ _ _ hs]; rfl
    | none => rw [hs] at h; simp at h

/-- Folding setIfMissing over a list makes every listed key present and
keeps every key that was already present. -/
theorem lookupKey_foldl_isSome (l : List (Key × Int)) (m : List (Key × Int))
    (k : Key) (v : Int)
    (h : (k, v) ∈ l ∨ (lookupKey m k).isSome = true) :
    (lookupKey (l.foldl (fun acc kv => setIfMissing acc kv.1 kv.2) m) k).isSome = true := by
  induction l generalizing m with
  | nil =>
    rcases h with h | h
    · cases h
    · simpa using h
  | cons a t ih =>
    rw [List.foldl_cons]
    rcases h with h | h
    · rcases List.mem_cons.mp h with h' | hmem
      · subst h'
        exact ih _ (Or.inr (lookupKey_setIfMissing_isSome m k v))
      · exact ih _ (Or.inl hmem)
    · exact ih _ (Or.inr (lookupKey_setIfMissing_mono m a.1 a.2 k h))

/-- C4: however much (or little) the xkb layout scan contributed, after
initKeyMap every key of the static fallback table resolves to a physical
code. -/
theorem c4_fallback_resolves (discovered : List (Key × Int)) (k : Key) (v : Int)
    (h : (k, v) ∈ fallbackEntries) :
    (lookupKey (initKeyMap discovered) k).isSome = true := by
  have h2 := lookupKey_foldl_isSome fallbackEntries discovered k v (Or.inl h)
  simpa [initKeyMap, applyFallback] using h2

/-- C4 witness: with an empty discovery result, a fallback-table key
still resolves. -/
theorem c4_fallback_resolves_witness :
    (Key.MediaPrevious, (165 : Int)) ∈ fallbackEntries ∧
    (lookupKey (initKeyMap []) Key.MediaPrevious).isSome = true :=
  ⟨by decide, c4_fallback_resolves [] Key.MediaPrevious 165 (by decide)⟩

/-- C5 (counterexample): with LC_ALL set but empty and LANG set to
da_DK.UTF-8 (and the layout still undetermined), the code derives no
layout at all, whereas taking the first non-empty locale variable (LANG)
would derive dk — a set-but-empty higher-priority variable does shadow a
non-empty lower-priority one. -/
theorem c5_locale_priority_counterexample :
    Layout.localeStep "" (some "") none (some "da_DK.UTF-8") = "" ∧
    Layout.localeStep "" none none (some "da_DK.UTF-8") = "dk" := by
  constructor <;> decide

/-- C5 (amended): the locale string is taken from the first of LC_ALL,
LC_MESSAGES, LANG that is set (present in the environment), in that
priority order, regardless of whether its value is empty; only an unset
variable defers to the next one. -/
theorem c5_locale_first_set_wins (v : String) (m l : Option String) :
    Layout.localeStep "" (some v) m l = Layout.localeHeuristic "" v ∧
    Layout.localeStep "" none (some v) l = Layout.localeHeuristic "" v ∧
    Layout.localeStep "" none none (some v) = Layout.localeHeuristic "" v ∧
    Layout.localeStep "" none none none = "" :=
  ⟨rfl, rfl, rfl, rfl⟩

/-- Both halves of Impl::sendKey return the same success flag regardless
of direction: device open and key mapped. -/
theorem sendKey_ok (s : SenderState) (k : Key) (d : Bool) :
    (Sender.sendKey s k d).1 = sendOk s k := by
  simp only [Sender.sendKey, sendOk]
  split
  · rfl
  · split <;> rfl

/-- keyDown's return value is sendKey's success flag. -/
theorem keyDown_ok_eq (s : SenderState) (k : Key) :
    (Sender.keyDown s k).ok = sendOk s k :=
  sendKey_ok { s with currentMods := Sender.modsOnKeyDown k s.currentMods } k true

/-- keyUp's return value is sendKey's success flag. -/
theorem keyUp_ok_eq (s : SenderState) (k : Key) :
    (Sender.keyUp s k).ok = sendOk s k :=
  sendKey_ok s k false

/-- sendOk ignores the tracked modifiers, hence survives a keyDown. -/
theorem sendOk_keyDown_state (s : SenderState) (k k2 : Key) :
    sendOk (Sender.keyDown s k).state k2 = sendOk s k2 := rfl

/-- sendOk ignores the tracked modifiers, hence survives a keyUp. -/
theorem sendOk_keyUp_state (s : SenderState) (k k2 : Key) :
    sendOk (Sender.keyUp s k).state k2 = sendOk s k2 := rfl

/-- sendOk reads only the descriptor and the key map. -/
theorem sendOk_set_mods (s : SenderState) (m : Modifier) (k : Key) :
    sendOk { s with currentMods := m } k = sendOk s k := rfl

/-- downCalls distributes over trace concatenation. -/
theorem downCalls_append (t1 t2 : List Action) :
    downCalls (t1 ++ t2) = downCalls t1 ++ downCalls t2 := by
  induction t1 with
  | nil => rfl
  | cons a t ih => cases a <;> simp [downCalls, ih]

/-- upCalls distributes over trace concatenation. -/
theorem upCalls_append (t1 t2 : List Action) :
    upCalls (t1 ++ t2) = upCalls t1 ++ upCalls t2 := by
  induction t1 with
  | nil => rfl
  | cons a t ih => cases a <;> simp [upCalls, ih]

/-- sendKey writes no call markers. -/
theorem calls_sendKey (s : SenderState) (k : Key) (d : Bool) :
    downCalls (Sender.sendKey s k d).2 = [] ∧ upCalls (Sender.sendKey s k d).2 = [] := by
  simp only [Sender.sendKey]
  split
  · exact ⟨rfl, rfl⟩
  · split <;> exact ⟨rfl, rfl⟩

/-- One keyDown call contributes exactly one downCall marker and no
upCall marker. -/
theorem calls_keyDown (s : SenderState) (k : Key) :
    downCalls (Sender.keyDown s k).trace = [k] ∧
    upCalls (Sender.keyDown s k).trace = [] := by
  have h := calls_sendKey { s with currentMods := Sender.modsOnKeyDown k s.currentMods } k true
  exact ⟨by simpa [Sender.keyDown, downCalls] using h.1,
    by simpa [Sender.keyDown, upCalls] using h.2⟩

/-- One keyUp call contributes exactly one upCall marker and no downCall
marker. -/
theorem calls_keyUp (s : SenderState) (k : Key) :
    upCalls (Sender.keyUp s k).trace = [k] ∧
    downCalls (Sender.keyUp s k).trace = [] := by
  have h := calls_sendKey s k false
  exact ⟨by simpa [Sender.keyUp, upCalls] using h.2,
    by simpa [Sender.keyUp, downCalls] using h.1⟩

/-- C6 (counterexample): in an Impl state where the left Shift variant is
unmapped but the right variant is mapped on an open device, holdModifier
on Shift fails and emits nothing — there is no fallback to the mapped
right variant, refuting the fall-back clause of the claim. -/
theorem c6_left_variant_counterexample :
    lookupKey sRightOnly.keyMap Key.ShiftLeft = none ∧
    lookupKey sRightOnly.keyMap Key.ShiftRight = some 54 ∧
    ¬ sRightOnly.fd < 0 ∧
    (Sender.holdModifier sRightOnly Modifier.Shift).ok = false ∧
    physEvents (Sender.holdModifier sRightOnly Modifier.Shift).trace = [] := by
  decide

/-- C6 (amended): for each bit set in the mask, holdModifier presses and
releaseModifier releases the left-side variant unconditionally — with no
fallback to another variant when the left one is unmapped — and each
returns the conjunction of the per-bit results (device open and left
variant mapped). -/
theorem c6_left_variant_amended (s : SenderState) (mod : Modifier) :
    ((Sender.holdModifier s mod).ok =
      ((!hasModifier mod Modifier.Shift || sendOk s Key.ShiftLeft) &&
       (!hasModifier mod Modifier.Ctrl || sendOk s Key.CtrlLeft) &&
       (!hasModifier mod Modifier.Alt || sendOk s Key.AltLeft) &&
       (!hasModifier mod Modifier.Super || sendOk s Key.SuperLeft))) ∧
    downCalls (Sender.holdModifier s mod).trace = leftVariantCalls mod ∧
    ((Sender.releaseModifier s mod).ok =
      ((!hasModifier mod Modifier.Shift || sendOk s Key.ShiftLeft) &&
       (!hasModifier mod Modifier.Ctrl || sendOk s Key.CtrlLeft) &&
       (!hasModifier mod Modifier.Alt || sendOk s Key.AltLeft) &&
       (!hasModifier mod Modifier.Super || sendOk s Key.SuperLeft))) ∧
    upCalls (Sender.releaseModifier s mod).trace = leftVariantCalls mod := by
  cases h1 : hasModifier mod Modifier.Shift <;>
    cases h2 : hasModifier mod Modifier.Ctrl <;>
      cases h3 : hasModifier mod Modifier.Alt <;>
        cases h4 : hasModifier mod Modifier.Super <;>
          simp [Sender.holdModifier, Sender.releaseModifier, h1, h2, h3, h4,
            keyDown_ok_eq, keyUp_ok_eq, sendOk_keyDown_state, sendOk_keyUp_state,
            sendOk_set_mods, downCalls_append, upCalls_append, calls_keyDown,
            calls_keyUp, calls_sendKey, leftVariantCalls, keyDown_state_eq,
            keyUp_state_eq, downCalls, upCalls]

/-- C3: on a ready backend whose map resolves CtrlLeft and C, starting
from no tracked modifiers, combo(Ctrl, C) succeeds, writes exactly the
four EV_KEY events Ctrl-down, C-down, C-up, Ctrl-up in that order, the
tracked modifier mask reads Ctrl at the moment of each of the four writes
(in particular everywhere between the first and the last), and reads None
once combo returns. -/
theorem c3_combo_ctrl_c (s : SenderState) (cc kc : Int)
    (hfd : ¬ s.fd < 0) (hmods : s.currentMods = Modifier.None)
    (hcc : lookupKey s.keyMap Key.CtrlLeft = some cc) (hcc0 : ¬ cc < 0)
    (hkc : lookupKey s.keyMap Key.C = some kc) (hkc0 : ¬ kc < 0) :
    (Sender.combo s Modifier.Ctrl Key.C).ok = true ∧
    physEvents (Sender.combo s Modifier.Ctrl Key.C).trace =
      [(cc, true, Modifier.Ctrl), (kc, true, Modifier.Ctrl),
        (kc, false, Modifier.Ctrl), (cc, false, Modifier.Ctrl)] ∧
    Sender.activeModifiers (Sender.combo s Modifier.Ctrl Key.C).state = Modifier.None := by
  obtain ⟨fd, cm, kd, km⟩ := s
  simp only at hfd hmods hcc hkc
  subst hmods
  simp [Sender.combo, Sender.holdModifier, Sender.releaseModifier, Sender.tap,
    Sender.keyDown, Sender.keyUp,
    Sender.sendKey, Sender.linuxKeyCodeFor, resolveCode, hasModifier,
    Modifier.Ctrl, Modifier.Shift, Modifier.Alt, Modifier.Super, Modifier.None,
    Modifier.or, Modifier.andNot, Sender.modsOnKeyDown, Sender.modsOnKeyUp,
    Sender.activeModifiers, physEvents, hcc, hkc, hfd, hcc0, hkc0]

/-- C3 witness: the concrete ready Sender with the constructed key map. -/
theorem c3_combo_ctrl_c_witness :
    (¬ sReady.fd < 0) ∧ sReady.currentMods = Modifier.None ∧
    lookupKey sReady.keyMap Key.CtrlLeft = some 29 ∧ ¬ (29 : Int) < 0 ∧
    lookupKey sReady.keyMap Key.C = some 46 ∧ ¬ (46 : Int) < 0 ∧
    ((Sender.combo sReady Modifier.Ctrl Key.C).ok = true ∧
     physEvents (Sender.combo sReady Modifier.Ctrl Key.C).trace =
       [(29, true, Modifier.Ctrl), (46, true, Modifier.Ctrl),
         (46, false, Modifier.Ctrl), (29, false, Modifier.Ctrl)] ∧
     Sender.activeModifiers (Sender.combo sReady Modifier.Ctrl Key.C).state =
       Modifier.None) :=
  ⟨by decide, by decide, by decide, by decide, by decide, by decide,
    c3_combo_ctrl_c sReady 29 46 (by decide) (by decide) (by decide) (by decide)
      (by decide) (by decide)⟩

/-- Each branch of the recognized-key dispatch is one field update: the
if-else chain of applyKV, in source order, as a single field-indexed
write. -/
theorem applyKV_eq (out : Layout.RuleNames) (k v : List Char) :
    Layout.applyKV out k v =
      (match findField k with
       | some f => out.updateField f (Layout.setIfEmpty (out.fieldOf f) (String.mk v))
       | none => out) := by
  simp only [Layout.applyKV, findField]
  split_ifs <;> rfl

/-- A key addresses the field whose recognized spellings it matches. -/
theorem findField_iff (k : List Char) (f : FieldId) :
    findField k = some f ↔ (k = fieldKeysA f ∨ k = fieldKeysB f) := by
  constructor
  · intro hc
    revert hc
    simp only [findField]
    split_ifs with a b c d e <;> intro hc
    · injection hc with h
      subst h
      exact a
    · injection hc with h
      subst h
      exact b
    · injection hc with h
      subst h
      exact c
    · injection hc with h
      subst h
      exact d
    · injection hc with h
      subst h
      exact e
    · exact hc.elim
  · intro hk
    cases f <;> rcases hk with rfl | rfl <;> decide

/-- Reading back the field just written. -/
theorem fieldOf_updateField_self (out : Layout.RuleNames) (f : FieldId) (x : String) :
    (out.updateField f x).fieldOf f = x := by
  cases f <;> rfl

/-- Writing one field leaves every other field alone. -/
theorem fieldOf_updateField_other (out : Layout.RuleNames) (f g : FieldId) (x : String)
    (h : f ≠ g) : (out.updateField f x).fieldOf g = out.fieldOf g := by
  cases f <;> cases g <;> first | rfl | exact absurd rfl h

/-- Once a field is non-empty no later line changes it. -/
theorem processLine_field_stable (f : FieldId) (out : Layout.RuleNames) (line : String)
    (h : out.fieldOf f ≠ "") :
    (Layout.processLine out line).fieldOf f = out.fieldOf f := by
  cases hp : Layout.parseKV line with
  | none => simp [Layout.processLine, hp]
  | some kv =>
    obtain ⟨k, v⟩ := kv
    by_cases hv : v = []
    · simp [Layout.processLine, hp, hv]
    · simp only [Layout.processLine, hp]
      rw [if_neg hv, applyKV_eq]
      cases hf : findField k with
      | none => rfl
      | some g =>
        by_cases hg : g = f
        · subst hg
          rw [fieldOf_updateField_self]
          simp [Layout.setIfEmpty, h]
        · rw [fieldOf_updateField_other _ _ _ _ hg]

/-- A line for the field with a non-empty value fills the still-empty
field with that value. -/
theorem processLine_field_key (f : FieldId) (out : Layout.RuleNames) (line : String)
    (k v : List Char) (h : out.fieldOf f = "")
    (hp : Layout.parseKV line = some (k, v)) (hv : v ≠ [])
    (hk : findField k = some f) :
    (Layout.processLine out line).fieldOf f = String.mk v := by
  simp only [Layout.processLine, hp]
  rw [if_neg hv, applyKV_eq, hk, fieldOf_updateField_self]
  simp [Layout.setIfEmpty, h]

/-- A parsed line whose key does not address the field leaves the field
alone. -/
theorem processLine_field_not (f : FieldId) (out : Layout.RuleNames) (line : String)
    (k v : List Char) (hp : Layout.parseKV line = some (k, v))
    (hk : findField k ≠ some f) :
    (Layout.processLine out line).fieldOf f = out.fieldOf f := by
  by_cases hv : v = []
  · simp [Layout.processLine, hp, hv]
  · simp only [Layout.processLine, hp]
    rw [if_neg hv, applyKV_eq]
    cases hf : findField k with
    | none => rfl
    | some g =>
      have hg : g ≠ f := by
        intro hgf
        exact hk (hgf ▸ hf)
      rw [fieldOf_updateField_other _ _ _ _ hg]

/-- C10: a recognized line whose processed value is empty fills nothing
(first conjunct), and, for every one of the five recognized fields, the
field after the whole parse holds the value of the first line for that
field whose processed value is non-empty — which may occur later than the
first occurrence of that key (second conjunct). -/
theorem c10_first_nonempty_fills (f : FieldId) (out : Layout.RuleNames)
    (lines : List String) :
    (∀ (line : String) (k : List Char),
      Layout.parseKV line = some (k, []) → Layout.processLine out line = out) ∧
    (Layout.parseConfigLines out lines).fieldOf f =
      (if out.fieldOf f = "" then
        (match firstVal f lines with
         | none => ""
         | some v => String.mk v)
       else out.fieldOf f) := by
  constructor
  · intro line k hp
    simp [Layout.processLine, hp]
  · induction lines generalizing out with
    | nil =>
      rcases eq_or_ne (out.fieldOf f) "" with h | h <;>
        simp [Layout.parseConfigLines, firstVal, h]
    | cons line rest ih =>
      have hfold : Layout.parseConfigLines out (line :: rest) =
          Layout.parseConfigLines (Layout.processLine out line) rest := rfl
      rcases eq_or_ne (out.fieldOf f) "" with h | h
      · cases hp : Layout.parseKV line with
        | none =>
          have hpl : Layout.processLine out line = out := by
            simp [Layout.processLine, hp]
          rw [hfold, hpl, ih out]
          simp [firstVal, hp]
        | some kv =>
          obtain ⟨k, v⟩ := kv
          by_cases hv : v = []
          · have hpl : Layout.processLine out line = out := by
              simp [Layout.processLine, hp, hv]
            rw [hfold, hpl, ih out]
            simp [firstVal, hp, hv]
          · by_cases hk : findField k = some f
            · have hkey : (k = fieldKeysA f ∨ k = fieldKeysB f) :=
                (findField_iff k f).mp hk
              have hlay : (Layout.processLine out line).fieldOf f = String.mk v :=
                processLine_field_key f out line k v h hp hv hk
              have hne : String.mk v ≠ "" := by
                intro hx
                exact hv (String.ext_iff.mp hx)
              have hfl : firstVal f (line :: rest) = some v := by
                simp only [firstVal, hp]
                rw [if_pos ⟨hkey, hv⟩]
              rw [hfold, ih _, hlay]
              simp [h, hne, hfl]
            · have hlay : (Layout.processLine out line).fieldOf f = out.fieldOf f :=
                processLine_field_not f out line k v hp hk
              have hfl : firstVal f (line :: rest) = firstVal f rest := by
                simp only [firstVal, hp]
                rw [if_neg (fun hc => hk ((findField_iff k f).mpr hc.1))]
              rw [hfold, ih _, hlay]
              simp [h, hfl]
      · rw [hfold, ih _, processLine_field_stable f out line h]
        simp [h]

/-- C10 witness: an empty-valued variant line fills nothing, and the
variant field is taken from the later line carrying the first non-empty
value, while an interleaved other-key line changes nothing for it. -/
theorem c10_first_nonempty_fills_witness :
    Layout.processLine Layout.RuleNames.empty "XKBVARIANT=" = Layout.RuleNames.empty ∧
    (Layout.parseConfigLines Layout.RuleNames.empty
      ["XKBVARIANT=", "XKBLAYOUT=de", "XKBVARIANT=fr"]).fieldOf FieldId.variant = "fr" :=
  ⟨(c10_first_nonempty_fills FieldId.variant Layout.RuleNames.empty []).1 "XKBVARIANT="
      ("XKBVARIANT".toList) (by decide),
    ((c10_first_nonempty_fills FieldId.variant Layout.RuleNames.empty
      ["XKBVARIANT=", "XKBLAYOUT=de", "XKBVARIANT=fr"]).2).trans (by decide)⟩


/-- C9 witness: concrete instance on the not-ready Sender state. -/
theorem c9_modifier_none_noop_witness :
    Sender.holdModifier sNotReady Modifier.None = ⟨true, sNotReady, []⟩ ∧
    Sender.isReady sNotReady = false ∧
    (Sender.keyDown sNotReady Key.A).ok = false :=
  ⟨(c9_modifier_none_noop.1 sNotReady).1, by decide,
    (c9_modifier_none_noop.2 sNotReady Key.A Modifier.None "x" 97 (by decide)).1⟩

end Axidev

